import Mathlib

/-!
A verification development for the newsp2p decentralized news platform.

The Go source is shallowly embedded: byte strings are `List Nat`, Go's
`time.Time` is its unix-nanosecond instant (`Int`), structs become Lean
structures, fallible Go functions return `Except`/`Option`, and stateful
repositories become explicit state passing.  External collaborators that
the core only calls (the Go standard library's ed25519, AES-GCM, PBKDF2
and base64 codecs) are modelled as parameter structures carrying exactly
the contract the calling code relies on; everything written in the
repository itself (validation, signing plumbing, services, repositories,
gossip envelope construction, pull-sync handler) is translated directly
from the source.
-/

set_option maxHeartbeats 1000000
set_option maxRecDepth 100000

/-- UTF-8 encoding of a single character, by the usual arithmetic on the
code point (Go strings are UTF-8 byte sequences). -/
def utf8Bytes (c : Char) : List Nat :=
  let n := c.toNat
  if n < 0x80 then [n]
  else if n < 0x800 then [0xC0 + n / 64, 0x80 + n % 64]
  else if n < 0x10000 then [0xE0 + n / 4096, 0x80 + (n / 64) % 64, 0x80 + n % 64]
  else [0xF0 + n / 262144, 0x80 + (n / 4096) % 64, 0x80 + (n / 64) % 64, 0x80 + n % 64]

/-- The UTF-8 bytes of a string: the Go conversion from string to a byte
slice. -/
def strBytes (s : String) : List Nat :=
  (s.data.map utf8Bytes).flatten

/-- Go's builtin `len` on a string: the number of UTF-8 bytes. -/
def goLen (s : String) : Nat :=
  (strBytes s).length

/-- JSON string escaping as done by Go's encoding/json for the characters
that occur in the repository's data (quote and backslash); used only to
build the deterministic serialization both signer and verifier share. -/
def jsonEscapeChar (c : Char) : List Char :=
  if c = '"' then ['\\', '"']
  else if c = '\\' then ['\\', '\\']
  else [c]

/-- A JSON string literal. -/
def jsonStr (s : String) : String :=
  "\"" ++ String.mk ((s.data.map jsonEscapeChar).flatten) ++ "\""

/-- A JSON array of string literals. -/
def jsonStrList (l : List String) : String :=
  "[" ++ String.intercalate "," (l.map jsonStr) ++ "]"

/-- JSON rendering of a `time.Time`.  Go marshals the instant in RFC 3339
form; the model renders the same instant (unix nanoseconds) through an
injective textual form, which is all the callers rely on. -/
def timeJson (t : Int) : String :=
  jsonStr (toString t)

/-! ## Domain model (internal/domain) -/

/-- internal/domain/article.go: the Article record.  `time.Time` fields
are modelled by their unix-nanosecond instant. -/
structure Article where
  ID : String
  CID : String
  Title : String
  Body : String
  Author : String
  AuthorPubKey : String
  OriginIP : String
  Signature : String
  Timestamp : Int
  Tags : List String
  Category : String
  Version : Int
  CreatedAt : Int
  UpdatedAt : Int
deriving DecidableEq, Repr

/-- internal/domain/errors.go and the error values the embedded services
construct: validation errors carry field and message, the remaining
sentinel errors of the domain package, and `other` for wrapped errors. -/
inductive DomainErr where
  | validation (field msg : String)
  | notFound
  | forbidden
  | invalidSignature
  | userNotActive
  | other (s : String)
deriving DecidableEq, Repr

/-- internal/domain/article.go GetSignableContent: the canonical JSON of
the SignableContent struct, with Go's fixed field order
title, body, author, timestamp, tags, category. -/
def Article.GetSignableContent (a : Article) : String :=
  "\x7b\"title\":" ++ jsonStr a.Title ++
  ",\"body\":" ++ jsonStr a.Body ++
  ",\"author\":" ++ jsonStr a.Author ++
  ",\"timestamp\":" ++ timeJson a.Timestamp ++
  ",\"tags\":" ++ jsonStrList a.Tags ++
  ",\"category\":" ++ jsonStr a.Category ++ "\x7d"

/-- internal/domain/article.go ToJSON: full JSON serialization (Go struct
field order). -/
def Article.ToJSON (a : Article) : String :=
  "\x7b\"id\":" ++ jsonStr a.ID ++
  ",\"cid\":" ++ jsonStr a.CID ++
  ",\"title\":" ++ jsonStr a.Title ++
  ",\"body\":" ++ jsonStr a.Body ++
  ",\"author\":" ++ jsonStr a.Author ++
  ",\"author_pubkey\":" ++ jsonStr a.AuthorPubKey ++
  ",\"origin_ip\":" ++ jsonStr a.OriginIP ++
  ",\"signature\":" ++ jsonStr a.Signature ++
  ",\"timestamp\":" ++ timeJson a.Timestamp ++
  ",\"tags\":" ++ jsonStrList a.Tags ++
  ",\"category\":" ++ jsonStr a.Category ++
  ",\"version\":" ++ toString a.Version ++
  ",\"created_at\":" ++ timeJson a.CreatedAt ++
  ",\"updated_at\":" ++ timeJson a.UpdatedAt ++ "\x7d"

/-- internal/domain/article.go AllowedCategories (the keys mapped to
true). -/
def AllowedCategories : List String :=
  ["", "news", "technology", "science", "politics", "business", "sports",
   "health", "entertainment", "opinion", "world", "local", "environment",
   "culture", "other"]

/-- The per-tag loop of Article.Validate: each tag is checked for length
then for emptiness, in order. -/
def checkTags : List String → Option DomainErr
  | [] => none
  | t :: ts =>
      if goLen t > 50 then some (.validation "tags" "each tag must be at most 50 characters")
      else if t = "" then some (.validation "tags" "empty tags are not allowed")
      else checkTags ts

/-- internal/domain/article.go Validate: `none` means the article is
valid, `some e` is the returned validation error.  Go's `len` on strings
counts bytes, hence `goLen`. -/
def Article.Validate (a : Article) : Option DomainErr :=
  if a.Title = "" then some (.validation "title" "title is required")
  else if goLen a.Title > 200 then some (.validation "title" "title must be at most 200 characters")
  else if a.Body = "" then some (.validation "body" "body is required")
  else if a.Author = "" then some (.validation "author" "author is required")
  else if a.Tags.length > 10 then some (.validation "tags" "maximum 10 tags allowed")
  else match checkTags a.Tags with
    | some e => some e
    | none =>
        if AllowedCategories.contains a.Category then none
        else some (.validation "category" "invalid category")

/-! ## Crypto primitives (pkg/crypto, external stdlib modelled by
contract structures) -/

/-- Go's encoding/base64 StdEncoding, modelled by its contract: a total
injective byte-to-text codec whose decoder inverts the encoder (on other
inputs the decoder may fail).  The repository only relies on this
round-trip. -/
structure Base64 where
  encode : List Nat → String
  decode : String → Option (List Nat)
  decode_encode : ∀ bs, decode (encode bs) = some bs

/-- A concrete executable codec witnessing the base64 contract: each byte
b becomes b repetitions of a marker character followed by a
separator. -/
def unaryEncodeL : List Nat → List Char
  | [] => []
  | b :: bs => List.replicate b 'a' ++ 'b' :: unaryEncodeL bs

/-- Decoder for `unaryEncodeL`. -/
def unaryDecodeL : List Char → List Nat
  | [] => []
  | c :: rest =>
      if c = 'b' then 0 :: unaryDecodeL rest
      else match unaryDecodeL rest with
        | [] => []
        | n :: ns => (n + 1) :: ns

/-- The concrete codec instance; the round-trip obligation is discharged
by induction over the byte list and, per byte, over its unary run. -/
def unaryB64 : Base64 where
  encode bs := String.mk (unaryEncodeL bs)
  decode s := some (unaryDecodeL s.data)
  decode_encode bs := by
    simp only [String.mk]
    induction bs with
    | nil => rfl
    | cons b bs ih =>
        simp only [Option.some.injEq] at ih ⊢
        show unaryDecodeL (List.replicate b 'a' ++ 'b' :: unaryEncodeL bs) = b :: bs
        induction b with
        | zero => simp [unaryDecodeL, ih]
        | succ k ihk =>
            simp only [List.replicate_succ, List.cons_append]
            unfold unaryDecodeL
            simp only [if_neg (by decide : ¬('a' = 'b'))]
            rw [ihk]

/-- Go's crypto/ed25519, modelled by its interface: a signing function
over message bytes and a 64-byte private key, and a boolean verifier over
a 32-byte public key.  Correctness for a matching keypair is stated per
theorem via `EdPaired`. -/
structure Ed where
  sign : List Nat → List Nat → List Nat
  verify : List Nat → List Nat → List Nat → Bool

/-- The stdlib contract for a matching ed25519 keypair: signatures
produced with the private key verify under the public key. -/
def EdPaired (E : Ed) (pub priv : List Nat) : Prop :=
  ∀ m, E.verify pub m (E.sign m priv) = true

/-- A concrete executable signature scheme: the private key is a 32-byte
seed followed by the public key, a signature is the message followed by
the private key, and verification recomputes it. -/
def toyEd : Ed where
  sign m priv := m ++ priv
  verify pub m sig := sig = m ++ (List.replicate 32 0 ++ pub)

/-- pkg crypto Sign (part_004): rejects a private key that is not 64
bytes, otherwise signs and base64-encodes the signature. -/
def cryptoSign (E : Ed) (B : Base64) (message priv : List Nat) : Except String String :=
  if priv.length ≠ 64 then .error "invalid private key size"
  else .ok (B.encode (E.sign message priv))

/-- pkg crypto Verify (part_004): rejects a public key that is not 32
bytes, fails when the signature does not base64-decode, otherwise reports
the ed25519 verification bit. -/
def cryptoVerify (E : Ed) (B : Base64) (message : List Nat) (signatureStr : String)
    (pub : List Nat) : Except String Bool :=
  if pub.length ≠ 32 then .error "invalid public key size"
  else match B.decode signatureStr with
    | none => .error "failed to decode signature"
    | some sig => .ok (E.verify pub message sig)

/-- pkg/crypto/keys.go PublicKeyFromString: base64-decode and check the
32-byte ed25519 public key size. -/
def PublicKeyFromString (B : Base64) (s : String) : Except String (List Nat) :=
  match B.decode s with
  | none => .error "failed to decode public key"
  | some d => if d.length ≠ 32 then .error "invalid public key size" else .ok d

/-- Go's crypto/cipher AES-256-GCM, modelled by its interface: `seal`
produces ciphertext-plus-tag from key, nonce and plaintext; `openA`
authenticates and decrypts, failing on tag mismatch. -/
structure AesGcm where
  sealG : List Nat → List Nat → List Nat → List Nat
  openG : List Nat → List Nat → List Nat → Option (List Nat)

/-- PBKDF2-HMAC-SHA256 (golang.org/x/crypto/pbkdf2) at the repository's
fixed parameters (100000 iterations, 32-byte key), modelled as a key
derivation function of password and salt. -/
structure Pbkdf2 where
  key : String → List Nat → List Nat

/-- pkg/crypto/keys.go EncryptPrivateKey: derive an AES key from the
password and a random 16-byte salt, seal the private key under a random
12-byte nonce, and base64-encode salt, nonce and ciphertext
concatenated.  The randomly drawn salt and nonce are explicit inputs. -/
def EncryptPrivateKey (P : Pbkdf2) (G : AesGcm) (B : Base64)
    (salt nonce priv : List Nat) (password : String) : String :=
  let key := P.key password salt
  let ciphertext := G.sealG key nonce priv
  B.encode (salt ++ nonce ++ ciphertext)

/-- pkg/crypto/keys.go DecryptPrivateKey: base64-decode, check the
minimum layout size salt(16) + nonce(12) + key(64) + tag(16), split off
salt and nonce, re-derive the AES key and open the ciphertext, then check
the ed25519 private key size. -/
def DecryptPrivateKey (P : Pbkdf2) (G : AesGcm) (B : Base64)
    (encrypted password : String) : Except String (List Nat) :=
  match B.decode encrypted with
  | none => .error "failed to decode encrypted key"
  | some combined =>
      if combined.length < 16 + 12 + 64 + 16 then .error "encrypted data too short"
      else
        let salt := combined.take 16
        let nonce := (combined.drop 16).take 12
        let ciphertext := combined.drop 28
        let key := P.key password salt
        match G.openG key nonce ciphertext with
        | none => .error "failed to decrypt"
        | some plaintext =>
            if plaintext.length ≠ 64 then .error "invalid private key size after decryption"
            else .ok plaintext

/-! ## Article signer (internal/auth, part_018) -/

/-- ArticleSigner.SignArticle: compute the signable content bytes, sign
with the (size-checked) private key, attach the base64 signature. -/
def SignArticle (E : Ed) (B : Base64) (a : Article) (priv : List Nat) :
    Except String Article :=
  let content := strBytes a.GetSignableContent
  match cryptoSign E B content priv with
  | .error e => .error e
  | .ok sig => .ok { a with Signature := sig }

/-- ArticleSigner.VerifyArticle: parse the author public key, recompute
the signable content bytes, verify the signature; ErrInvalidSignature on
a failing verification bit. -/
def VerifyArticle (E : Ed) (B : Base64) (a : Article) : Except DomainErr Unit :=
  match PublicKeyFromString B a.AuthorPubKey with
  | .error e => .error (.other e)
  | .ok pub =>
      let content := strBytes a.GetSignableContent
      match cryptoVerify E B content a.Signature pub with
      | .error e => .error (.other e)
      | .ok valid => if valid then .ok () else .error .invalidSignature

/-! ## Users and repositories -/

/-- internal/domain user record (the fields the article pipeline
reads). -/
structure User where
  ID : String
  Username : String
  PasswordHash : String
  PublicKey : String
  PrivateKey : String
  IsActive : Bool
deriving DecidableEq, Repr

/-- An association-list write: replace the binding for a key, keep the
rest (the semantics of a key-value `Set`). -/
def kvSet {α : Type} (k : String) (v : α) (m : List (String × α)) : List (String × α) :=
  (k, v) :: m.filter (fun p => p.1 ≠ k)

/-- Association-list read. -/
def kvGet {α : Type} (k : String) (m : List (String × α)) : Option α :=
  (m.find? (fun p => p.1 = k)).map (fun p => p.2)

/-- internal/repository/badger: the store's article keyspace, the
`article:id:*` data records and the `article:cid:*` secondary index (the
time and author index keys only affect listing order and are not part of
the embedded state). -/
structure BadgerSt where
  data : List (String × Article)
  cidIdx : List (String × String)
deriving DecidableEq, Repr

/-- The empty badger store. -/
def badgerEmpty : BadgerSt := { data := [], cidIdx := [] }

/-- badger ArticleRepo.Create: one transaction of key-value `Set`s — an
unconditional upsert keyed by id, plus the cid index write.  It never
fails on a duplicate id. -/
def badgerCreate (st : BadgerSt) (a : Article) : Except DomainErr BadgerSt :=
  .ok { data := kvSet a.ID a st.data, cidIdx := kvSet a.CID a.ID st.cidIdx }

/-- badger ArticleRepo.GetByID. -/
def badgerGetByID (st : BadgerSt) (id : String) : Except DomainErr Article :=
  match kvGet id st.data with
  | none => .error .notFound
  | some a => .ok a

/-- badger ArticleRepo.GetByCID: cid index lookup then GetByID. -/
def badgerGetByCID (st : BadgerSt) (cid : String) : Except DomainErr Article :=
  match kvGet cid st.cidIdx with
  | none => .error .notFound
  | some id => badgerGetByID st id

/-- badger ArticleRepo.Update: a single `Set` of the id key (an upsert;
secondary indexes are not rewritten, per the source comment). -/
def badgerUpdate (st : BadgerSt) (a : Article) : Except DomainErr BadgerSt :=
  .ok { st with data := kvSet a.ID a st.data }

/-- badger ArticleRepo.Delete: load the article (key-not-found error when
absent), delete the index keys and the data key. -/
def badgerDelete (st : BadgerSt) (id : String) : Except DomainErr BadgerSt :=
  match kvGet id st.data with
  | none => .error (.other "Key not found")
  | some a =>
      .ok { data := st.data.filter (fun p => p.1 ≠ id),
            cidIdx := st.cidIdx.filter (fun p => p.1 ≠ a.CID) }

/-- internal/repository/sqlite: the articles table plus the usernames of
the users table (the author column carries a foreign key onto it, with
foreign keys enabled in the connection string). -/
structure SqliteSt where
  users : List String
  articles : List Article
deriving DecidableEq, Repr

/-- An empty sqlite database holding the given user rows. -/
def sqliteEmpty (users : List String) : SqliteSt := { users := users, articles := [] }

/-- sqlite ArticleRepo.Create: a plain INSERT; it fails when the id
primary key or the cid UNIQUE constraint is violated, or when the author
foreign key has no user row. -/
def sqliteCreate (st : SqliteSt) (a : Article) : Except DomainErr SqliteSt :=
  if st.articles.any (fun b => b.ID = a.ID || b.CID = a.CID) || !st.users.contains a.Author then
    .error (.other "failed to create article: constraint failed")
  else
    .ok { st with articles := st.articles ++ [a] }

/-- sqlite ArticleRepo.GetByID. -/
def sqliteGetByID (st : SqliteSt) (id : String) : Except DomainErr Article :=
  match st.articles.find? (fun b => b.ID = id) with
  | none => .error .notFound
  | some a => .ok a

/-- sqlite ArticleRepo.GetByCID. -/
def sqliteGetByCID (st : SqliteSt) (cid : String) : Except DomainErr Article :=
  match st.articles.find? (fun b => b.CID = cid) with
  | none => .error .notFound
  | some a => .ok a

/-- The row transformation of sqlite ArticleRepo.Update's UPDATE
statement: the SET list touches title, body, tags, category,
version = version + 1 and updated_at, and nothing else. -/
def sqliteUpdateRow (u : Article) (row : Article) : Article :=
  if row.ID = u.ID then
    { row with Title := u.Title, Body := u.Body, Tags := u.Tags,
               Category := u.Category, Version := row.Version + 1,
               UpdatedAt := u.UpdatedAt }
  else row

/-- sqlite ArticleRepo.Update: ErrArticleNotFound when no row was
affected. -/
def sqliteUpdate (st : SqliteSt) (a : Article) : Except DomainErr SqliteSt :=
  if st.articles.any (fun b => b.ID = a.ID) then
    .ok { st with articles := st.articles.map (sqliteUpdateRow a) }
  else .error .notFound

/-- sqlite ArticleRepo.Delete: ErrArticleNotFound when no row was
affected. -/
def sqliteDelete (st : SqliteSt) (id : String) : Except DomainErr SqliteSt :=
  if st.articles.any (fun b => b.ID = id) then
    .ok { st with articles := st.articles.filter (fun b => b.ID ≠ id) }
  else .error .notFound

/-- The repository capability the article service is constructed with
(internal/repository ArticleRepository, restricted to the methods the
embedded claims exercise). -/
structure Repo (σ : Type) where
  getByID : σ → String → Except DomainErr Article
  create : σ → Article → Except DomainErr σ
  update : σ → Article → Except DomainErr σ
  delete : σ → String → Except DomainErr σ

/-- The badger-backed repository. -/
def badgerRepo : Repo BadgerSt where
  getByID := badgerGetByID
  create := badgerCreate
  update := badgerUpdate
  delete := badgerDelete

/-- The sqlite-backed repository. -/
def sqliteRepo : Repo SqliteSt where
  getByID := sqliteGetByID
  create := sqliteCreate
  update := sqliteUpdate
  delete := sqliteDelete

/-! ## Article service (internal/service/article.go) -/

/-- internal/domain ArticleCreateRequest. -/
structure ArticleCreateRequest where
  Title : String
  Body : String
  Tags : List String
  Category : String
deriving DecidableEq, Repr

/-- internal/domain ArticleUpdateRequest; a nil Tags slice is `none`. -/
structure ArticleUpdateRequest where
  Title : String
  Body : String
  Tags : Option (List String)
  Category : String
deriving DecidableEq, Repr

/-- The service state around the repository: the repository state, the
search index documents keyed by article id, and the set of pinned CIDs in
the blob store. -/
structure SvcState (σ : Type) where
  repo : σ
  index : List (String × Article)
  pins : List String

/-- The article literal built in ArticleService.Create step 2: fresh id,
fields copied from the request, author identity from the user record,
timestamp and bookkeeping set to now, version 1. -/
def mkArticle (req : ArticleCreateRequest) (user : User) (uuid : String)
    (now : Int) : Article :=
  { ID := uuid, CID := "", Title := req.Title, Body := req.Body,
    Author := user.Username, AuthorPubKey := user.PublicKey, OriginIP := "",
    Signature := "", Timestamp := now, Tags := req.Tags,
    Category := req.Category, Version := 1, CreatedAt := now, UpdatedAt := now }

/-- ArticleService.Create.  The user row the service loads is passed
directly; the fresh UUID, the current instant and the blob-store `Add`
capability are explicit inputs.  Returns the Go function's result
together with the resulting service state (unchanged on error paths,
which perform no write). -/
def ArticleService.Create {σ : Type} (E : Ed) (B : Base64) (P : Pbkdf2) (G : AesGcm)
    (R : Repo σ) (ipfsAdd : List Nat → Except String String)
    (st : SvcState σ) (req : ArticleCreateRequest) (user : User)
    (uuid : String) (now : Int) : Except DomainErr Article × SvcState σ :=
  if !user.IsActive then (.error .userNotActive, st)
  else
    match DecryptPrivateKey P G B user.PrivateKey user.PasswordHash with
    | .error e => (.error (.other ("failed to decrypt private key: " ++ e)), st)
    | .ok privateKey =>
        let article := mkArticle req user uuid now
        match article.Validate with
        | some e => (.error e, st)
        | none =>
            match SignArticle E B article privateKey with
            | .error e => (.error (.other ("failed to sign article: " ++ e)), st)
            | .ok signed =>
                match ipfsAdd (strBytes signed.ToJSON) with
                | .error e => (.error (.other e), st)
                | .ok cid =>
                    let final := { signed with CID := cid }
                    match R.create st.repo final with
                    | .error e => (.error e, st)
                    | .ok repo' =>
                        (.ok final,
                         { st with repo := repo', index := kvSet final.ID final st.index })

/-- The patch application of ArticleService.Update step 2: non-empty
request fields overwrite, a non-nil Tags slice overwrites, and updated_at
is set to now. -/
def applyPatch (a : Article) (req : ArticleUpdateRequest) (now : Int) : Article :=
  let a := if req.Title ≠ "" then { a with Title := req.Title } else a
  let a := if req.Body ≠ "" then { a with Body := req.Body } else a
  let a := match req.Tags with
    | some tags => { a with Tags := tags }
    | none => a
  let a := if req.Category ≠ "" then { a with Category := req.Category } else a
  { a with UpdatedAt := now }

/-- ArticleService.Update: load the article, check the requester is its
author, apply the patch, re-validate, persist through the repository and
refresh the search index.  It does not touch the signature, the CID or
(in the service) the version. -/
def ArticleService.Update {σ : Type} (R : Repo σ) (st : SvcState σ) (id : String)
    (req : ArticleUpdateRequest) (user : User) (now : Int) :
    Except DomainErr Article × SvcState σ :=
  match R.getByID st.repo id with
  | .error e => (.error e, st)
  | .ok article =>
      if article.Author ≠ user.Username then (.error .forbidden, st)
      else
        let article := applyPatch article req now
        match article.Validate with
        | some e => (.error e, st)
        | none =>
            match R.update st.repo article with
            | .error e => (.error e, st)
            | .ok repo' =>
                (.ok article,
                 { st with repo := repo', index := kvSet article.ID article st.index })

/-- ArticleService.Delete: load, author check, repository delete, index
delete, best-effort unpin of the article's CID. -/
def ArticleService.Delete {σ : Type} (R : Repo σ) (st : SvcState σ) (id : String)
    (user : User) : Except DomainErr Unit × SvcState σ :=
  match R.getByID st.repo id with
  | .error e => (.error e, st)
  | .ok article =>
      if article.Author ≠ user.Username then (.error .forbidden, st)
      else
        match R.delete st.repo id with
        | .error e => (.error e, st)
        | .ok repo' =>
            let index' := st.index.filter (fun p => p.1 ≠ id)
            let pins' := if article.CID ≠ "" then st.pins.filter (fun c => c ≠ article.CID)
                         else st.pins
            (.ok (), { repo := repo', index := index', pins := pins' })

/-! ## Gossip broadcasting (internal/p2p/discovery.go) -/

/-- The ArticleMessage gossip envelope. -/
structure ArticleMessage where
  Typ : String
  Art : Option Article
  ArticleID : String
  Timestamp : Int
  Signature : String
  PeerID : String
deriving DecidableEq, Repr

/-- Go's Time.Unix(): unix seconds from the unix-nanosecond instant,
truncating toward zero. -/
def unixSeconds (t : Int) : Int := Int.tdiv t 1000000000

/-- Broadcaster.BroadcastArticle, up to the message actually handed to
the topic publish.  The struct literal reads article.Timestamp before
the nil guard, so a nil article faults (`none`) rather than returning an
error; the zero-valued fields of the literal (ArticleID before the guard,
and Signature, which the function never assigns) are empty strings. -/
def BroadcastArticle (peerId : String) (msgType : String)
    (article : Option Article) : Option ArticleMessage :=
  match article with
  | none => none
  | some a =>
      let msg : ArticleMessage :=
        { Typ := msgType, Art := some a, ArticleID := "",
          Timestamp := unixSeconds a.Timestamp, Signature := "", PeerID := peerId }
      let msg := if (some a : Option Article).isSome then { msg with ArticleID := a.ID } else msg
      some msg

/-! ## Pull-sync protocol (internal/p2p/sync.go) -/

/-- MaxArticlesPerSync. -/
def MaxArticlesPerSync : Int := 50

/-- SyncRequest; Go's int is modelled by Int so that zero, negative and
oversized limits are all expressible. -/
structure SyncRequest where
  Since : Int
  Limit : Int
  ExcludeIDs : List String
deriving DecidableEq, Repr

/-- SyncResponse. -/
structure SyncResponse where
  Articles : List Article
  HasMore : Bool
deriving DecidableEq, Repr

/-- Modelled from the spec: the ArticleProvider implementation behind
SyncService (its GetRecent method) is not part of the sources, only its
interface and callers are.  Per the spec's pull-sync section and the
badger List pagination it delegates to, it returns the stored articles
with timestamp after `since`, newest first, truncated to `limit`. -/
def GetRecent (store : List Article) (limit : Nat) (since : Int) : List Article :=
  ((store.filter (fun a => since < a.Timestamp)).insertionSort
    (fun a b => b.Timestamp ≤ a.Timestamp)).take limit

/-- SyncService.handleSyncRequest: clamp a non-positive or oversized
limit to MaxArticlesPerSync, fetch, and answer with the articles and a
has_more bit set when the count reached the limit. -/
def handleSyncRequest (store : List Article) (req : SyncRequest) : SyncResponse :=
  let limit : Int := if req.Limit ≤ 0 || req.Limit > MaxArticlesPerSync
                     then MaxArticlesPerSync else req.Limit
  let articles := GetRecent store limit.toNat req.Since
  { Articles := articles, HasMore := articles.length ≥ limit.toNat }

/-! ## Replica ingest (HandleIncomingArticle) -/

/-- The invariant-I3 tie-break: an incoming article beats a stored one
with the same id when its version is later, with ties broken by later
timestamp, then lexicographically larger cid. -/
def beats (a b : Article) : Bool :=
  (b.Version < a.Version) ||
  (a.Version = b.Version &&
    ((b.Timestamp < a.Timestamp) ||
     (a.Timestamp = b.Timestamp && b.CID < a.CID)))

/-- The local replica state HandleIncomingArticle maintains: the article
store and the search index. -/
structure ReplicaSt where
  articles : List Article
  index : List (String × Article)
deriving DecidableEq

/-- Modelled from the spec: ArticleService.HandleIncomingArticle is
invoked by the gossip subscription handler and the pull-sync loop, but
its body is not among the sources (only its interface and call sites
are).  Per the spec's ingest pipeline: verify the signature and drop
silently on failure; on a present id keep the invariant-I3 winner,
returning success on duplicates; otherwise persist and index. -/
def HandleIncomingArticle (E : Ed) (B : Base64) (st : ReplicaSt) (a : Article) :
    Except DomainErr ReplicaSt :=
  match VerifyArticle E B a with
  | .error _ => .ok st
  | .ok _ =>
      match st.articles.find? (fun b => b.ID = a.ID) with
      | some b =>
          if beats a b then
            .ok { articles := a :: st.articles.filter (fun c => c.ID ≠ a.ID),
                  index := kvSet a.ID a st.index }
          else .ok st
      | none =>
          .ok { articles := a :: st.articles, index := kvSet a.ID a st.index }

/-! ## Concrete instances and fixtures -/

/-- A concrete executable key-derivation function. -/
def toyPbkdf2 : Pbkdf2 where
  key password salt := strBytes password ++ salt

/-- A concrete executable authenticated cipher: the tag is the key and
nonce appended to the plaintext; opening authenticates by checking that
suffix. -/
def toyAes : AesGcm where
  sealG key nonce m := m ++ key ++ nonce
  openG key nonce c :=
    if c.drop (c.length - (key.length + nonce.length)) = key ++ nonce then
      some (c.take (c.length - (key.length + nonce.length)))
    else none

/-- Success bit of an Except value. -/
def isOkE {ε α : Type} : Except ε α → Bool
  | .ok _ => true
  | .error _ => false

/-- Fixture public key (32 bytes). -/
def pk0 : List Nat := List.replicate 32 1

/-- Fixture private key (64 bytes), paired with `pk0` under `toyEd`. -/
def sk0 : List Nat := List.replicate 32 0 ++ pk0

/-- Fixture encrypted private key for password hash "h". -/
def encKey0 : String :=
  EncryptPrivateKey toyPbkdf2 toyAes unaryB64
    (List.replicate 16 0) (List.replicate 12 0) sk0 "h"

/-- Fixture user row as produced by registration: the stored public key
is the encoding of `pk0` and the stored private key decrypts under the
password hash to `sk0`. -/
def user0 : User :=
  { ID := "u1", Username := "alice", PasswordHash := "h",
    PublicKey := unaryB64.encode pk0, PrivateKey := encKey0, IsActive := true }

/-- Fixture create request. -/
def req0 : ArticleCreateRequest :=
  { Title := "t", Body := "b", Tags := [], Category := "" }

/-- The empty badger-backed service state. -/
def svc0 : SvcState BadgerSt := { repo := badgerEmpty, index := [], pins := [] }

/-- The article Create returns on the fixture inputs. -/
def w1Art : Article :=
  { mkArticle req0 user0 "id1" 5 with
    Signature := unaryB64.encode
      (toyEd.sign (strBytes (mkArticle req0 user0 "id1" 5).GetSignableContent) sk0),
    CID := "cid1" }

/-- Fixture article (well-formed fields, stored signature an arbitrary
stale string). -/
def exA : Article :=
  { ID := "a1", CID := "c1", Title := "t", Body := "b", Author := "alice",
    AuthorPubKey := "pk", OriginIP := "", Signature := "sig",
    Timestamp := 1700000000000000000, Tags := [], Category := "news",
    Version := 1, CreatedAt := 0, UpdatedAt := 0 }

/-- Badger service state holding `exA`. -/
def exSvcB : SvcState BadgerSt :=
  { repo := { data := [("a1", exA)], cidIdx := [("c1", "a1")] },
    index := [("a1", exA)], pins := ["c1"] }

/-- Patch touching only the body. -/
def exPatch : ArticleUpdateRequest :=
  { Title := "", Body := "newbody", Tags := none, Category := "" }

/-- The author's user row (no key material needed by Update/Delete). -/
def exAuthor : User :=
  { ID := "u1", Username := "alice", PasswordHash := "", PublicKey := "",
    PrivateKey := "", IsActive := true }

/-- A different user. -/
def exOther : User :=
  { ID := "u2", Username := "bob", PasswordHash := "", PublicKey := "",
    PrivateKey := "", IsActive := true }

/-- Badger store after creating `exA` from empty. -/
def exBadger1 : BadgerSt := { data := [("a1", exA)], cidIdx := [("c1", "a1")] }

/-- Sqlite store after creating `exA` from empty (author row present). -/
def exSqlite1 : SqliteSt := { users := ["alice"], articles := [exA] }

/-- Fixture sync store: two articles with distinct timestamps. -/
def syncStore : List Article :=
  [{ exA with ID := "s1", CID := "sc1", Timestamp := 10 },
   { exA with ID := "s2", CID := "sc2", Timestamp := 20 }]

/-- Fixture create request with an empty body. -/
def req9 : ArticleCreateRequest :=
  { Title := "t", Body := "", Tags := [], Category := "" }

/-! ## Helper lemmas -/

theorem utf8Bytes_ne_nil (c : Char) : utf8Bytes c ≠ [] := by
  unfold utf8Bytes
  simp only []
  split
  · simp
  · split
    · simp
    · split <;> simp

/-- Every character contributes at least one byte, so the Go byte length
of a string dominates its character count. -/
theorem length_le_goLen (s : String) : s.data.length ≤ goLen s := by
  unfold goLen strBytes
  induction s.data with
  | nil => simp
  | cons c cs ih =>
      simp only [List.map_cons, List.flatten_cons, List.length_append, List.length_cons]
      have h1 : 1 ≤ (utf8Bytes c).length := by
        rcases h : utf8Bytes c with _ | ⟨b, bs⟩
        · exact absurd h (utf8Bytes_ne_nil c)
        · simp
      simp only [List.map, List.flatten] at ih ⊢
      omega

theorem checkTags_eq_none_iff (ts : List String) :
    checkTags ts = none ↔ ∀ t ∈ ts, goLen t ≤ 50 ∧ t ≠ "" := by
  induction ts with
  | nil => simp [checkTags]
  | cons t ts ih =>
      unfold checkTags
      by_cases h1 : goLen t > 50
      · simp only [if_pos h1]
        constructor
        · intro h; cases h
        · intro h
          exact absurd (h t (by simp)).1 (by omega)
      · simp only [if_neg h1]
        by_cases h2 : t = ""
        · simp only [if_pos h2]
          constructor
          · intro h; cases h
          · intro h
            exact absurd h2 (h t (by simp)).2
        · simp only [if_neg h2, ih]
          constructor
          · intro h s hs
            rw [List.mem_cons] at hs
            rcases hs with hs | hs
            · subst hs; exact ⟨by omega, h2⟩
            · exact h s hs
          · intro h s hs
            exact h s (List.mem_cons_of_mem t hs)

/-- Validate accepts exactly the articles satisfying all boundary
conditions. -/
theorem validate_eq_none_iff (a : Article) :
    a.Validate = none ↔
      (a.Title ≠ "" ∧ goLen a.Title ≤ 200 ∧ a.Body ≠ "" ∧ a.Author ≠ "" ∧
       a.Tags.length ≤ 10 ∧ (∀ t ∈ a.Tags, goLen t ≤ 50 ∧ t ≠ "") ∧
       AllowedCategories.contains a.Category = true) := by
  unfold Article.Validate
  by_cases h1 : a.Title = ""
  · simp [h1]
  by_cases h2 : goLen a.Title > 200
  · simp only [if_neg h1, if_pos h2]
    constructor
    · intro h; cases h
    · intro h; omega
  by_cases h3 : a.Body = ""
  · simp only [if_neg h1, if_neg h2, if_pos h3]
    constructor
    · intro h; cases h
    · intro h; exact absurd h3 h.2.2.1
  by_cases h4 : a.Author = ""
  · simp only [if_neg h1, if_neg h2, if_neg h3, if_pos h4]
    constructor
    · intro h; cases h
    · intro h; exact absurd h4 h.2.2.2.1
  by_cases h5 : a.Tags.length > 10
  · simp only [if_neg h1, if_neg h2, if_neg h3, if_neg h4, if_pos h5]
    constructor
    · intro h; cases h
    · intro h; omega
  simp only [if_neg h1, if_neg h2, if_neg h3, if_neg h4, if_neg h5]
  rcases hct : checkTags a.Tags with _ | e
  · by_cases h6 : AllowedCategories.contains a.Category
    · simp only [if_pos h6]
      rw [checkTags_eq_none_iff] at hct
      constructor
      · intro _
        exact ⟨h1, by omega, h3, h4, by omega, hct, h6⟩
      · intro _; trivial
    · simp only [if_neg h6]
      constructor
      · intro h; cases h
      · intro h; exact absurd h.2.2.2.2.2.2 (by simpa using h6)
  · constructor
    · intro h; cases h
    · intro h
      have := (checkTags_eq_none_iff a.Tags).mpr h.2.2.2.2.2.1
      rw [this] at hct; cases hct

theorem kvGet_kvSet {α : Type} (k : String) (v : α) (m : List (String × α)) :
    kvGet k (kvSet k v m) = some v := by
  simp [kvGet, kvSet, List.find?]

theorem toyEd_paired (pub : List Nat) :
    EdPaired toyEd pub (List.replicate 32 0 ++ pub) := by
  intro m
  simp [toyEd, EdPaired]

theorem publicKeyFromString_length {B : Base64} {s : String} {pub : List Nat}
    (h : PublicKeyFromString B s = .ok pub) : pub.length = 32 := by
  unfold PublicKeyFromString at h
  rcases hd : B.decode s with _ | d <;> rw [hd] at h
  · cases h
  · dsimp only at h
    split at h
    · cases h
    · next hlen => cases h; omega

/-! ## Claim theorems -/

/-- C10: BroadcastArticle is total only for a non-nil article: the struct
literal reads article.Timestamp before the nil guard runs, so a nil
article faults (modelled by `none`) instead of returning an error, and
for every non-nil article the guard is redundant and the published
message's ArticleID equals article.ID. -/
theorem broadcastArticle_nil_faults (peerId msgType : String) :
    BroadcastArticle peerId msgType none = none ∧
    ∀ a : Article, ∃ m : ArticleMessage,
      BroadcastArticle peerId msgType (some a) = some m ∧ m.ArticleID = a.ID := by
  constructor
  · rfl
  · intro a
    refine ⟨_, rfl, ?_⟩
    simp [BroadcastArticle]

/-- C2 counterexample: at a concrete article, the envelope published by
BroadcastArticle has an empty Signature field, so it does not carry a
non-empty envelope-level signature over the canonical payload. -/
theorem broadcastArticle_signature_empty_cex :
    (BroadcastArticle "peer1" "new" (some exA)).map (fun m => m.Signature) = some "" := by
  rfl

/-- C2 amended: every envelope BroadcastArticle publishes for a non-nil
article carries the publisher's peer id, the article, its id and its
unix-second timestamp, but its Signature field is the empty string: the
function never computes an envelope-level signature (transport
authenticity is left to the pubsub layer's strict signing policy). -/
theorem broadcastArticle_message_shape (peerId msgType : String) (a : Article) :
    BroadcastArticle peerId msgType (some a) =
      some { Typ := msgType, Art := some a, ArticleID := a.ID,
             Timestamp := unixSeconds a.Timestamp, Signature := "",
             PeerID := peerId } := by
  simp [BroadcastArticle]

theorem beats_irrefl (a : Article) : beats a a = false := by
  simp [beats]

/-- C4: HandleIncoming is idempotent: for every article and every local
replica state the handler returns success, and running it a second time
from the resulting state returns success with the state unchanged. -/
theorem handleIncoming_idempotent (E : Ed) (B : Base64) (st : ReplicaSt) (a : Article) :
    ∃ st1 : ReplicaSt,
      HandleIncomingArticle E B st a = .ok st1 ∧
      HandleIncomingArticle E B st1 a = .ok st1 := by
  unfold HandleIncomingArticle
  rcases hv : VerifyArticle E B a with e | u
  · exact ⟨st, by rfl, by rfl⟩
  · dsimp only
    rcases hf : List.find? (fun b => decide (b.ID = a.ID)) st.articles with _ | b
    · refine ⟨⟨a :: st.articles, kvSet a.ID a st.index⟩, ?_, ?_⟩
      · rw [hf]
      · dsimp only
        rw [List.find?_cons_of_pos _ (by simp)]
        dsimp only
        rw [beats_irrefl]
        simp
    · by_cases hb : beats a b = true
      · refine ⟨⟨a :: st.articles.filter (fun c => decide (c.ID ≠ a.ID)),
                 kvSet a.ID a st.index⟩, ?_, ?_⟩
        · rw [hf]
          dsimp only
          rw [if_pos hb]
        · dsimp only
          rw [List.find?_cons_of_pos _ (by simp)]
          dsimp only
          rw [beats_irrefl]
          simp
      · refine ⟨st, ?_, ?_⟩
        · rw [hf]
          dsimp only
          rw [if_neg (by simp [hb])]
        · rw [hf]
          dsimp only
          rw [if_neg (by simp [hb])]

/-- C5: the pull-sync responder returns at most min(limit, 50) articles
for a requested limit between 1 and 50, at most 50 articles for every
other limit, and sets has_more exactly when the returned count reached
the effective limit. -/
theorem handleSyncRequest_caps (store : List Article) (req : SyncRequest) :
    (handleSyncRequest store req).Articles.length ≤ 50 ∧
    (1 ≤ req.Limit → req.Limit ≤ 50 →
      (handleSyncRequest store req).Articles.length ≤ min req.Limit.toNat 50) ∧
    ((handleSyncRequest store req).HasMore = true ↔
      (handleSyncRequest store req).Articles.length =
        (if req.Limit ≤ 0 || req.Limit > MaxArticlesPerSync then MaxArticlesPerSync
         else req.Limit).toNat) := by
  unfold handleSyncRequest
  dsimp only
  set L : Int := if req.Limit ≤ 0 || req.Limit > MaxArticlesPerSync
                 then MaxArticlesPerSync else req.Limit with hL
  have hlen : (GetRecent store L.toNat req.Since).length ≤ L.toNat := by
    unfold GetRecent
    simp [List.length_take]
  have hL50 : L.toNat ≤ 50 := by
    rw [hL]
    split
    · decide
    · next hcond =>
        simp only [Bool.or_eq_true, decide_eq_true_eq, not_or] at hcond
        unfold MaxArticlesPerSync at hcond
        omega
  refine ⟨le_trans hlen hL50, ?_, ?_⟩
  · intro h1 h2
    have hEq : L = req.Limit := by
      rw [hL, if_neg]
      simp only [Bool.or_eq_true, decide_eq_true_eq, not_or]
      unfold MaxArticlesPerSync
      omega
    refine le_trans hlen ?_
    rw [hEq]
    omega
  · simp only [ge_iff_le, decide_eq_true_eq]
    omega

/-- C7: when the requester's username differs from the stored article's
author, both Update and Delete answer Forbidden and leave the repository,
the search index and the blob-store pins untouched (the authorization
check precedes every write). -/
theorem update_delete_forbidden {σ : Type} (R : Repo σ) (st : SvcState σ)
    (id : String) (req : ArticleUpdateRequest) (user : User) (now : Int)
    (article : Article)
    (hget : R.getByID st.repo id = .ok article)
    (hauthor : article.Author ≠ user.Username) :
    ArticleService.Update R st id req user now = (.error .forbidden, st) ∧
    ArticleService.Delete R st id user = (.error .forbidden, st) := by
  constructor
  · unfold ArticleService.Update
    rw [hget]
    dsimp only
    rw [if_pos hauthor]
  · unfold ArticleService.Delete
    rw [hget]
    dsimp only
    rw [if_pos hauthor]

/-- C5 witness at a concrete store and an in-range limit. -/
theorem handleSyncRequest_caps_witness :
    (handleSyncRequest syncStore { Since := 0, Limit := 1, ExcludeIDs := [] }).Articles.length ≤
      min ((1 : Int)).toNat 50 :=
  (handleSyncRequest_caps syncStore { Since := 0, Limit := 1, ExcludeIDs := [] }).2.1
    (by decide) (by decide)

/-- C7 witness: a concrete badger-backed state where bob attempts to
update and delete alice's article. -/
theorem update_delete_forbidden_witness :
    ArticleService.Update badgerRepo exSvcB "a1" exPatch exOther 99 =
      (Except.error DomainErr.forbidden, exSvcB) ∧
    ArticleService.Delete badgerRepo exSvcB "a1" exOther =
      (Except.error DomainErr.forbidden, exSvcB) :=
  update_delete_forbidden badgerRepo exSvcB "a1" exPatch exOther 99 exA
    (by rfl) (by decide)

/-- C6 counterexample: the identical two-step operation sequence
Create(A); Create(A) from the empty state succeeds in the key-value
backend (an upsert) but fails in the relational backend (id primary-key
and cid uniqueness violation), so the two backends are not
interchangeable. -/
theorem backends_not_interchangeable_cex :
    badgerCreate badgerEmpty exA = .ok exBadger1 ∧
    sqliteCreate (sqliteEmpty ["alice"]) exA = .ok exSqlite1 ∧
    isOkE (badgerCreate exBadger1 exA) = true ∧
    isOkE (sqliteCreate exSqlite1 exA) = false := by
  refine ⟨by rfl, by rfl, by rfl, by rfl⟩

/-- C6 amended: the backends agree on Create of a fresh article, on the
reads GetByID/GetByCID of a present or absent key, but they diverge on
Create of an already-present id: the key-value store overwrites and
succeeds while the relational store reports a constraint error (they
also diverge on Update, which increments the version column only in the
relational store — see the Update theorems). -/
theorem backends_agree_on_fresh_create (a : Article) (users : List String)
    (hu : users.contains a.Author = true) :
    ∃ (b1 : BadgerSt) (s1 : SqliteSt),
      badgerCreate badgerEmpty a = .ok b1 ∧
      sqliteCreate (sqliteEmpty users) a = .ok s1 ∧
      badgerGetByID b1 a.ID = .ok a ∧ sqliteGetByID s1 a.ID = .ok a ∧
      badgerGetByCID b1 a.CID = .ok a ∧ sqliteGetByCID s1 a.CID = .ok a ∧
      badgerGetByID badgerEmpty a.ID = .error .notFound ∧
      sqliteGetByID (sqliteEmpty users) a.ID = .error .notFound ∧
      isOkE (badgerCreate b1 a) = true ∧
      isOkE (sqliteCreate s1 a) = false := by
  refine ⟨{ data := [(a.ID, a)], cidIdx := [(a.CID, a.ID)] },
          { users := users, articles := [a] },
          ?_, ?_, ?_, ?_, ?_, ?_, ?_, ?_, ?_, ?_⟩
  · simp [badgerCreate, kvSet, badgerEmpty]
  · have hm : a.Author ∈ users := by simpa using hu
    simp [sqliteCreate, sqliteEmpty, hm]
  · simp [badgerGetByID, kvGet, List.find?]
  · simp [sqliteGetByID, List.find?]
  · simp [badgerGetByCID, badgerGetByID, kvGet, List.find?]
  · simp [sqliteGetByCID, List.find?]
  · simp [badgerGetByID, kvGet, badgerEmpty]
  · simp [sqliteGetByID, sqliteEmpty]
  · simp [badgerCreate, isOkE]
  · simp [sqliteCreate, isOkE]

/-- C6 amended witness at the fixture article and user table. -/
theorem backends_agree_on_fresh_create_witness :
    ∃ (b1 : BadgerSt) (s1 : SqliteSt),
      badgerCreate badgerEmpty exA = .ok b1 ∧
      sqliteCreate (sqliteEmpty ["alice"]) exA = .ok s1 ∧
      badgerGetByID b1 exA.ID = .ok exA ∧ sqliteGetByID s1 exA.ID = .ok exA ∧
      badgerGetByCID b1 exA.CID = .ok exA ∧ sqliteGetByCID s1 exA.CID = .ok exA ∧
      badgerGetByID badgerEmpty exA.ID = .error .notFound ∧
      sqliteGetByID (sqliteEmpty ["alice"]) exA.ID = .error .notFound ∧
      isOkE (badgerCreate b1 exA) = true ∧
      isOkE (sqliteCreate s1 exA) = false :=
  backends_agree_on_fresh_create exA ["alice"] (by decide)

theorem applyPatch_fields (a : Article) (req : ArticleUpdateRequest) (now : Int) :
    (applyPatch a req now).ID = a.ID ∧
    (applyPatch a req now).CID = a.CID ∧
    (applyPatch a req now).Author = a.Author ∧
    (applyPatch a req now).AuthorPubKey = a.AuthorPubKey ∧
    (applyPatch a req now).OriginIP = a.OriginIP ∧
    (applyPatch a req now).Signature = a.Signature ∧
    (applyPatch a req now).Timestamp = a.Timestamp ∧
    (applyPatch a req now).Version = a.Version ∧
    (applyPatch a req now).CreatedAt = a.CreatedAt ∧
    (applyPatch a req now).UpdatedAt = now := by
  unfold applyPatch
  rcases htags : req.Tags with _ | tags <;> split_ifs <;> simp

theorem applyPatch_empty_fields (a : Article) (req : ArticleUpdateRequest) (now : Int) :
    (req.Title = "" → (applyPatch a req now).Title = a.Title) ∧
    (req.Body = "" → (applyPatch a req now).Body = a.Body) ∧
    (req.Tags = none → (applyPatch a req now).Tags = a.Tags) ∧
    (req.Category = "" → (applyPatch a req now).Category = a.Category) := by
  unfold applyPatch
  rcases htags : req.Tags with _ | tags <;> split_ifs <;> simp_all

theorem sqliteUpdateRow_ID (u row : Article) : (sqliteUpdateRow u row).ID = row.ID := by
  unfold sqliteUpdateRow
  split_ifs <;> simp

theorem find?_map_of_preserving (l : List Article) (f : Article → Article) (id : String)
    (hf : ∀ y, (f y).ID = y.ID) (x : Article)
    (hx : l.find? (fun b => decide (b.ID = id)) = some x) :
    (l.map f).find? (fun b => decide (b.ID = id)) = some (f x) := by
  induction l with
  | nil => cases hx
  | cons y l ih =>
      by_cases hy : y.ID = id
      · rw [List.find?_cons_of_pos _ (by simp [hy])] at hx
        cases hx
        rw [List.map_cons, List.find?_cons_of_pos _ (by simp [hf, hy])]
      · rw [List.find?_cons_of_neg _ (by simp [hy])] at hx
        rw [List.map_cons, List.find?_cons_of_neg _ (by simp [hf, hy])]
        exact ih hx

theorem sqliteGetByID_ok {st : SqliteSt} {id : String} {a : Article}
    (h : sqliteGetByID st id = .ok a) :
    st.articles.find? (fun b => decide (b.ID = id)) = some a ∧ a.ID = id := by
  unfold sqliteGetByID at h
  rcases hf : st.articles.find? (fun b => decide (b.ID = id)) with _ | x <;> rw [hf] at h
  · cases h
  · dsimp only at h
    cases h
    have hp := List.find?_some hf
    simp only [decide_eq_true_eq] at hp
    exact ⟨hf, hp⟩

/-- C3 counterexample: a concrete successful Update by the author (body
patched) after which the stored article keeps version 1 — not the prior
version plus one — and keeps the prior signature and CID, contradicting
the claimed re-sign and re-add. -/
theorem update_not_resigned_cex :
    (ArticleService.Update badgerRepo exSvcB "a1" exPatch exAuthor 99).1 =
      Except.ok { exA with Body := "newbody", UpdatedAt := 99 } ∧
    badgerGetByID (ArticleService.Update badgerRepo exSvcB "a1" exPatch exAuthor 99).2.repo "a1" =
      Except.ok { exA with Body := "newbody", UpdatedAt := 99 } ∧
    ({ exA with Body := "newbody", UpdatedAt := 99 } : Article).Version = 1 ∧
    ¬(({ exA with Body := "newbody", UpdatedAt := 99 } : Article).Version = exA.Version + 1) ∧
    ({ exA with Body := "newbody", UpdatedAt := 99 } : Article).Signature = exA.Signature ∧
    ({ exA with Body := "newbody", UpdatedAt := 99 } : Article).CID = exA.CID := by
  refine ⟨by rfl, by rfl, by rfl, by decide, by rfl, by rfl⟩

/-- C3 amended: a successful Update by the author applies the non-empty
patch fields, sets updated_at to now, and persists — but it does not
re-sign and does not re-add to the blob store: the stored article keeps
the prior signature and CID on both backends; the service leaves the
version unchanged (so the key-value backend stores it unchanged), and
only the relational backend's UPDATE statement increments the version
column. -/
theorem update_applies_patch_without_resigning
    (bst : SvcState BadgerSt) (sst : SvcState SqliteSt) (id : String)
    (req : ArticleUpdateRequest) (user : User) (now : Int) (ab asq : Article)
    (hgb : badgerGetByID bst.repo id = .ok ab) (hib : ab.ID = id)
    (hab : ab.Author = user.Username)
    (hvb : (applyPatch ab req now).Validate = none)
    (hgs : sqliteGetByID sst.repo id = .ok asq)
    (has : asq.Author = user.Username)
    (hvs : (applyPatch asq req now).Validate = none) :
    (ArticleService.Update badgerRepo bst id req user now).1 =
      .ok (applyPatch ab req now) ∧
    badgerGetByID (ArticleService.Update badgerRepo bst id req user now).2.repo id =
      .ok (applyPatch ab req now) ∧
    (applyPatch ab req now).Version = ab.Version ∧
    (applyPatch ab req now).Signature = ab.Signature ∧
    (applyPatch ab req now).CID = ab.CID ∧
    (req.Title = "" → (applyPatch ab req now).Title = ab.Title) ∧
    (req.Body = "" → (applyPatch ab req now).Body = ab.Body) ∧
    (req.Tags = none → (applyPatch ab req now).Tags = ab.Tags) ∧
    (req.Category = "" → (applyPatch ab req now).Category = ab.Category) ∧
    (ArticleService.Update sqliteRepo sst id req user now).1 =
      .ok (applyPatch asq req now) ∧
    sqliteGetByID (ArticleService.Update sqliteRepo sst id req user now).2.repo id =
      .ok { applyPatch asq req now with Version := asq.Version + 1 } := by
  obtain ⟨pb1, pb2, pb3, pb4, pb5, pb6, pb7, pb8, pb9, pb10⟩ := applyPatch_fields ab req now
  obtain ⟨ps1, ps2, ps3, ps4, ps5, ps6, ps7, ps8, ps9, ps10⟩ := applyPatch_fields asq req now
  obtain ⟨pe1, pe2, pe3, pe4⟩ := applyPatch_empty_fields ab req now
  obtain ⟨hfind, haid⟩ := sqliteGetByID_ok hgs
  have hbadger :
      ArticleService.Update badgerRepo bst id req user now =
        (.ok (applyPatch ab req now),
         { bst with repo := { bst.repo with
                              data := kvSet (applyPatch ab req now).ID (applyPatch ab req now) bst.repo.data },
                    index := kvSet (applyPatch ab req now).ID (applyPatch ab req now) bst.index }) := by
    unfold ArticleService.Update
    show (match badgerGetByID bst.repo id with
          | .error e => _
          | .ok article => _) = _
    rw [hgb]
    dsimp only
    rw [if_neg (by simp [hab])]
    rw [hvb]
    rfl
  have hsqlany : sst.repo.articles.any
      (fun b => decide (b.ID = (applyPatch asq req now).ID)) = true := by
    rw [List.any_eq_true]
    exact ⟨asq, List.mem_of_find?_eq_some hfind, by simp [ps1, haid]⟩
  have hsqlupd : sqliteUpdate sst.repo (applyPatch asq req now) =
      .ok { sst.repo with
            articles := sst.repo.articles.map (sqliteUpdateRow (applyPatch asq req now)) } := by
    unfold sqliteUpdate
    rw [if_pos hsqlany]
  have hsqlite :
      ArticleService.Update sqliteRepo sst id req user now =
        (.ok (applyPatch asq req now),
         { sst with repo := { sst.repo with
                              articles := sst.repo.articles.map (sqliteUpdateRow (applyPatch asq req now)) },
                    index := kvSet (applyPatch asq req now).ID (applyPatch asq req now) sst.index }) := by
    unfold ArticleService.Update
    show (match sqliteGetByID sst.repo id with
          | .error e => _
          | .ok article => _) = _
    rw [hgs]
    dsimp only
    rw [if_neg (by simp [has])]
    rw [hvs]
    dsimp only [sqliteRepo]
    rw [hsqlupd]
  have hrow : sqliteUpdateRow (applyPatch asq req now) asq =
      { applyPatch asq req now with Version := asq.Version + 1 } := by
    unfold sqliteUpdateRow
    rw [if_pos (by rw [ps1])]
    simp only [ps1, ps2, ps3, ps4, ps5, ps6, ps7, ps9]
  refine ⟨by rw [hbadger], ?_, pb8, pb6, pb2, pe1, pe2, pe3, pe4, by rw [hsqlite], ?_⟩
  · rw [hbadger]
    dsimp only
    unfold badgerGetByID
    rw [show (applyPatch ab req now).ID = id by rw [pb1, hib]]
    rw [kvGet_kvSet]
  · rw [hsqlite]
    dsimp only
    unfold sqliteGetByID
    rw [find?_map_of_preserving _ _ _ (sqliteUpdateRow_ID _) _ hfind]
    dsimp only
    rw [hrow]

/-- C3 amended witness at the concrete fixture stores. -/
theorem update_applies_patch_without_resigning_witness :
    (ArticleService.Update badgerRepo exSvcB "a1" exPatch exAuthor 99).1 =
      .ok (applyPatch exA exPatch 99) ∧
    badgerGetByID (ArticleService.Update badgerRepo exSvcB "a1" exPatch exAuthor 99).2.repo "a1" =
      .ok (applyPatch exA exPatch 99) ∧
    (applyPatch exA exPatch 99).Version = exA.Version ∧
    (applyPatch exA exPatch 99).Signature = exA.Signature ∧
    (applyPatch exA exPatch 99).CID = exA.CID ∧
    (exPatch.Title = "" → (applyPatch exA exPatch 99).Title = exA.Title) ∧
    (exPatch.Body = "" → (applyPatch exA exPatch 99).Body = exA.Body) ∧
    (exPatch.Tags = none → (applyPatch exA exPatch 99).Tags = exA.Tags) ∧
    (exPatch.Category = "" → (applyPatch exA exPatch 99).Category = exA.Category) ∧
    (ArticleService.Update sqliteRepo { repo := exSqlite1, index := [], pins := [] }
        "a1" exPatch exAuthor 99).1 = .ok (applyPatch exA exPatch 99) ∧
    sqliteGetByID (ArticleService.Update sqliteRepo { repo := exSqlite1, index := [], pins := [] }
        "a1" exPatch exAuthor 99).2.repo "a1" =
      .ok { applyPatch exA exPatch 99 with Version := exA.Version + 1 } :=
  update_applies_patch_without_resigning
    exSvcB { repo := exSqlite1, index := [], pins := [] } "a1" exPatch exAuthor 99 exA exA
    (by rfl) (by rfl) (by rfl) (by rfl) (by rfl) (by rfl) (by rfl)

theorem verifyArticle_of_signed (E : Ed) (B : Base64) (pub sk : List Nat) (a : Article)
    (hpk : PublicKeyFromString B a.AuthorPubKey = .ok pub)
    (hpair : EdPaired E pub sk)
    (hsig : a.Signature = B.encode (E.sign (strBytes a.GetSignableContent) sk)) :
    VerifyArticle E B a = .ok () := by
  unfold VerifyArticle
  rw [hpk]
  dsimp only
  unfold cryptoVerify
  rw [if_neg (by have := publicKeyFromString_length hpk; omega)]
  rw [hsig, B.decode_encode]
  dsimp only
  rw [hpair]
  rfl

/-- C1: every article Create returns without error verifies: parsing its
author_pubkey, recomputing the canonical signable-content bytes and
checking the attached signature succeeds, provided the user row carries
the matching registered keypair (public key parsing to `pub`, private key
decrypting to `sk`, the two paired under the signature scheme). -/
theorem create_article_verifies {σ : Type} (E : Ed) (B : Base64) (P : Pbkdf2) (G : AesGcm)
    (R : Repo σ) (ipfsAdd : List Nat → Except String String) (st : SvcState σ)
    (req : ArticleCreateRequest) (user : User) (uuid : String) (now : Int)
    (a : Article) (pub sk : List Nat)
    (hok : (ArticleService.Create E B P G R ipfsAdd st req user uuid now).1 = .ok a)
    (hpub : PublicKeyFromString B user.PublicKey = .ok pub)
    (hsk : DecryptPrivateKey P G B user.PrivateKey user.PasswordHash = .ok sk)
    (hpair : EdPaired E pub sk) :
    VerifyArticle E B a = .ok () := by
  unfold ArticleService.Create at hok
  by_cases hact : user.IsActive
  · rw [if_neg (by simp [hact])] at hok
    rw [hsk] at hok
    dsimp only at hok
    rcases hval : (mkArticle req user uuid now).Validate with _ | v <;> rw [hval] at hok
    · dsimp only at hok
      unfold SignArticle cryptoSign at hok
      dsimp only at hok
      by_cases hlen : sk.length = 64
      · rw [if_neg (by omega)] at hok
        dsimp only at hok
        rcases hadd : ipfsAdd (strBytes
            ({ mkArticle req user uuid now with
               Signature := B.encode (E.sign
                 (strBytes (mkArticle req user uuid now).GetSignableContent) sk) } :
              Article).ToJSON) with e | cid <;> rw [hadd] at hok
        · cases hok
        · dsimp only at hok
          rcases hrc : R.create st.repo
              { mkArticle req user uuid now with
                Signature := B.encode (E.sign
                  (strBytes (mkArticle req user uuid now).GetSignableContent) sk),
                CID := cid } with e | repo' <;> rw [hrc] at hok
          · cases hok
          · dsimp only at hok
            cases hok
            exact verifyArticle_of_signed E B pub sk _ hpub hpair rfl
      · rw [if_pos (by omega)] at hok
        cases hok
    · cases hok
  · rw [if_pos (by simp [hact])] at hok
    cases hok

/-- C1 witness: a concrete Create on the fixture user and request, whose
returned article verifies. -/
theorem create_article_verifies_witness :
    VerifyArticle toyEd unaryB64 w1Art = .ok () :=
  create_article_verifies toyEd unaryB64 toyPbkdf2 toyAes badgerRepo
    (fun _ => .ok "cid1") svc0 req0 user0 "id1" 5 w1Art pk0 sk0
    (by rfl) (by rfl) (by rfl) (toyEd_paired pk0)

/-- C9: every boundary violation in the request — empty body, title over
200 characters, more than 10 tags, a tag over 50 characters or empty, or
a category outside the allowed set — makes Validate return a validation
error, and Create (reaching its validation step with an active user and
a decryptable key) refuses, returning that error with no state change. -/
theorem create_rejects_invalid {σ : Type} (E : Ed) (B : Base64) (P : Pbkdf2) (G : AesGcm)
    (R : Repo σ) (ipfsAdd : List Nat → Except String String) (st : SvcState σ)
    (req : ArticleCreateRequest) (user : User) (uuid : String) (now : Int) (sk : List Nat)
    (hactive : user.IsActive = true)
    (hdec : DecryptPrivateKey P G B user.PrivateKey user.PasswordHash = .ok sk)
    (hviol : req.Body = "" ∨ 200 < req.Title.data.length ∨ 10 < req.Tags.length ∨
             (∃ t ∈ req.Tags, 50 < t.data.length ∨ t = "") ∨
             AllowedCategories.contains req.Category = false) :
    ∃ v, (mkArticle req user uuid now).Validate = some v ∧
         ArticleService.Create E B P G R ipfsAdd st req user uuid now = (.error v, st) := by
  have hne : (mkArticle req user uuid now).Validate ≠ none := by
    intro hnone
    rw [validate_eq_none_iff] at hnone
    simp only [mkArticle] at hnone
    obtain ⟨h1, h2, h3, h4, h5, h6, h7⟩ := hnone
    rcases hviol with hv | hv | hv | ⟨t, ht, hv⟩ | hv
    · exact h3 hv
    · have := length_le_goLen req.Title
      omega
    · omega
    · obtain ⟨hlen, hne'⟩ := h6 t ht
      have := length_le_goLen t
      rcases hv with hv | hv
      · omega
      · exact hne' hv
    · rw [h7] at hv
      cases hv
  rcases hval : (mkArticle req user uuid now).Validate with _ | v
  · exact absurd hval hne
  · refine ⟨v, rfl, ?_⟩
    unfold ArticleService.Create
    rw [if_neg (by simp [hactive])]
    rw [hdec]
    dsimp only
    rw [hval]

/-- C9 witness: a request with an empty body is rejected by Validate and
refused by Create. -/
theorem create_rejects_invalid_witness :
    ∃ v, (mkArticle req9 user0 "id9" 7).Validate = some v ∧
         ArticleService.Create toyEd unaryB64 toyPbkdf2 toyAes badgerRepo
           (fun _ => .ok "cid9") svc0 req9 user0 "id9" 7 = (.error v, svc0) :=
  create_rejects_invalid toyEd unaryB64 toyPbkdf2 toyAes badgerRepo (fun _ => .ok "cid9")
    svc0 req9 user0 "id9" 7 sk0 (by rfl) (by rfl) (Or.inl rfl)

/-- C8: encrypting a 64-byte private key and decrypting with the same
password round-trips; the ciphertext base64-decodes to the layout
salt(16) || nonce(12) || ciphertext-plus-tag; and decrypting with a
password whose authentication fails under the GCM contract (a different
derived key) returns an error. -/
theorem encryptPrivateKey_roundtrip (P : Pbkdf2) (G : AesGcm) (B : Base64)
    (salt nonce priv : List Nat) (password wrong : String)
    (hs : salt.length = 16) (hn : nonce.length = 12) (hp : priv.length = 64)
    (hct : 80 ≤ (G.sealG (P.key password salt) nonce priv).length)
    (hopen : G.openG (P.key password salt) nonce
        (G.sealG (P.key password salt) nonce priv) = some priv)
    (hwrong : G.openG (P.key wrong salt) nonce
        (G.sealG (P.key password salt) nonce priv) = none) :
    DecryptPrivateKey P G B (EncryptPrivateKey P G B salt nonce priv password) password =
      .ok priv ∧
    B.decode (EncryptPrivateKey P G B salt nonce priv password) =
      some (salt ++ nonce ++ G.sealG (P.key password salt) nonce priv) ∧
    ∃ e, DecryptPrivateKey P G B (EncryptPrivateKey P G B salt nonce priv password) wrong =
      .error e := by
  have hkey : ∀ pw : String,
      DecryptPrivateKey P G B (EncryptPrivateKey P G B salt nonce priv password) pw =
        (match G.openG (P.key pw salt) nonce (G.sealG (P.key password salt) nonce priv) with
         | none => .error "failed to decrypt"
         | some plaintext =>
             if plaintext.length ≠ 64 then .error "invalid private key size after decryption"
             else .ok plaintext) := by
    intro pw
    unfold DecryptPrivateKey EncryptPrivateKey
    dsimp only
    rw [B.decode_encode]
    dsimp only
    rw [if_neg (by simp only [List.length_append, hs, hn]; omega)]
    rw [List.append_assoc]
    rw [List.take_left' hs, List.drop_left' hs, List.take_left' hn]
    rw [← List.append_assoc]
    rw [List.drop_left' (by simp only [List.length_append, hs, hn])]
  refine ⟨?_, ?_, ?_⟩
  · rw [hkey password, hopen]
    dsimp only
    rw [if_neg (by omega)]
  · unfold EncryptPrivateKey
    exact B.decode_encode _
  · refine ⟨"failed to decrypt", ?_⟩
    rw [hkey wrong, hwrong]

/-- C8 witness: a concrete 64-byte key, salt, nonce and password pair
under the concrete codec, cipher and KDF instances. -/
theorem encryptPrivateKey_roundtrip_witness :
    DecryptPrivateKey toyPbkdf2 toyAes unaryB64
      (EncryptPrivateKey toyPbkdf2 toyAes unaryB64
        (List.replicate 16 9) (List.replicate 12 5) (List.replicate 64 7) "pw") "pw" =
      .ok (List.replicate 64 7) ∧
    unaryB64.decode (EncryptPrivateKey toyPbkdf2 toyAes unaryB64
        (List.replicate 16 9) (List.replicate 12 5) (List.replicate 64 7) "pw") =
      some (List.replicate 16 9 ++ List.replicate 12 5 ++
        toyAes.sealG (toyPbkdf2.key "pw" (List.replicate 16 9)) (List.replicate 12 5)
          (List.replicate 64 7)) ∧
    ∃ e, DecryptPrivateKey toyPbkdf2 toyAes unaryB64
      (EncryptPrivateKey toyPbkdf2 toyAes unaryB64
        (List.replicate 16 9) (List.replicate 12 5) (List.replicate 64 7) "pw") "q" =
      .error e :=
  encryptPrivateKey_roundtrip toyPbkdf2 toyAes unaryB64
    (List.replicate 16 9) (List.replicate 12 5) (List.replicate 64 7) "pw" "q"
    (by rfl) (by rfl) (by rfl) (by decide) (by rfl) (by rfl)
